import Mathlib

/-!
Shallow embedding of the always-at-morg game server core
(internal/server: room.go, treasure_hunt.go, user.go, chat.go,
websocket.go), with theorems checking the natural-language
specification against it.

Modelling conventions:
* Go maps become association lists (`List (String × α)`) with
  first-match lookup; Go map iteration over `Clients` is modelled by
  list order (the code's per-iteration effects are order-independent
  in every function embedded here, except that loops that stop at the
  first match keep first-match semantics).
* Go channels (`client.send`, capacity 256) become a `queue : List String`
  plus a `cap : Nat` and a `closed : Bool` flag on the connection;
  a non-blocking send succeeds iff `queue.length < cap`.
* The 250×400 map `[250][400]string` becomes a total function
  `Int → Int → String` (row, column); all accesses in the source are
  bounds-checked first, exactly as embedded.
* `rand.Intn` draws become an explicit list of sampled coordinates.
* `uuid.New()` becomes an explicit fresh-id argument.
* `strings.EqualFold` / `strings.TrimSpace` / `unicode.IsSpace` are
  embedded at ASCII precision (the riddle answers and guesses the
  claims discuss are ASCII).
* Wall-clock timers become events of an explicit step function
  (`engineStep`); the externally generated riddle is the event's payload.
-/

namespace Morg

/-! ### Association lists modelling Go maps -/

/-- Lookup in an association list (Go map read `m[k]`). -/
def alLookup {α : Type} (k : String) : List (String × α) → Option α
  | [] => none
  | (k', v) :: t => if k' = k then some v else alLookup k t

/-- Insert/replace in an association list (Go map write `m[k] = v`). -/
def alInsert {α : Type} (k : String) (v : α) : List (String × α) → List (String × α)
  | [] => [(k, v)]
  | (k', v') :: t => if k' = k then (k, v) :: t else (k', v') :: alInsert k v t

/-- Delete from an association list (Go `delete(m, k)`). -/
def alErase {α : Type} (k : String) : List (String × α) → List (String × α)
  | [] => []
  | (k', v') :: t => if k' = k then t else (k', v') :: alErase k t

/-! ### MapIndex: the 250×400 labeled grid and walkability (room.go) -/

/-- The room map `[250][400]string`, as row/column cell labels. -/
abbrev GameMap := Int → Int → String

/-- Embeds `strconv.Atoi(value) == nil` for the short cell labels:
an optional sign followed by at least one digit. -/
def isNumericString (s : String) : Bool :=
  let ds := match s.data with
    | '+' :: t => t
    | '-' :: t => t
    | t => t
  !ds.isEmpty && ds.all Char.isDigit

/-- The walkable-cell test of `canAvatarFitAt` (room.go lines 287-299):
explicitly walkable labels, or a numeric sub-room label. -/
def cellFitWalkable (v : String) : Bool :=
  v == " " || v == "e" || v == "-1" || v == "@" || isNumericString v

/-- The walkable-cell test of `findRandomSpawnPosition` (room.go line 109):
only space or dark-brown floor. -/
def cellSpawnWalkable (v : String) : Bool :=
  v == " " || v == "@"

/-- The nine `(dx, dy)` offsets of the 3×3 avatar footprint, in the
source's loop order (dy outer, dx inner, each from -1 to 1). -/
def footprint : List (Int × Int) :=
  [(-1, -1), (0, -1), (1, -1), (-1, 0), (0, 0), (1, 0), (-1, 1), (0, 1), (1, 1)]

/-- Embeds `Room.canAvatarFitAt` (room.go 273-304): every cell of the
3×3 footprint centered at `(x, y)` is in bounds and fit-walkable. -/
def canAvatarFitAt (m : GameMap) (x y : Int) : Bool :=
  footprint.all fun d =>
    let cx := x + d.1
    let cy := y + d.2
    decide (0 ≤ cy) && decide (cy < 250) && decide (0 ≤ cx) && decide (cx < 400)
      && cellFitWalkable (m cy cx)

/-- The validity loop of `findRandomSpawnPosition` (room.go 94-117):
every cell of the 3×3 footprint is in bounds and spawn-walkable. -/
def spawnValidAt (m : GameMap) (x y : Int) : Bool :=
  footprint.all fun d =>
    let cx := x + d.1
    let cy := y + d.2
    decide (0 ≤ cy) && decide (cy < 250) && decide (0 ≤ cx) && decide (cx < 400)
      && cellSpawnWalkable (m cy cx)

/-- Position key `fmt.Sprintf("%d:%d", y, x)`: "Y:X". -/
def posKey (x y : Int) : String := toString y ++ ":" ++ toString x

/-- One sampled candidate is accepted by `findRandomSpawnPosition` iff
the footprint is spawn-walkable and the encoded position is unoccupied. -/
def spawnAccept (m : GameMap) (pi : List (String × String)) (x y : Int) : Bool :=
  spawnValidAt m x y && (alLookup (posKey x y) pi).isNone

/-- Embeds the attempt loop of `findRandomSpawnPosition` (room.go 85-132)
over an explicit list of random draws: the first accepted draw wins. -/
def findSpawn (m : GameMap) (pi : List (String × String)) :
    List (Int × Int) → Option String
  | [] => none
  | (x, y) :: rest =>
    if spawnValidAt m x y then
      if (alLookup (posKey x y) pi).isSome then findSpawn m pi rest
      else some (posKey x y)
    else findSpawn m pi rest

/-- `findRandomSpawnPosition` consumes at most `maxAttempts = 1000` draws. -/
def findRandomSpawnPosition (m : GameMap) (pi : List (String × String))
    (attempts : List (Int × Int)) : Option String :=
  findSpawn m pi (attempts.take 1000)

/-- Embeds `Room.getRoomNumberFromPosition` (room.go 358-373). -/
def getRoomNumberFromPosition (m : GameMap) (x y : Int) : String :=
  if decide (0 ≤ y) && decide (y < 250) && decide (0 ≤ x) && decide (x < 400) then
    if isNumericString (m y x) then m y x else ""
  else ""

/-- Embeds `fmt.Sscanf(posStr, "%d:%d", &y, &x)`: decodes "Y:X" back to
`(x, y)`; unparsable parts are left at the zero value, as in Go. -/
def decodePos (s : String) : Int × Int :=
  match s.splitOn ":" with
  | [a, b] => ((b.toInt?).getD 0, (a.toInt?).getD 0)
  | _ => (0, 0)

/-! ### Room state (room.go) -/

/-- Embeds `Client` (websocket.go) as seen by the room: identity fields,
position, current sub-room, and the send channel as queue/cap/closed. -/
structure Conn where
  id : String
  name : String
  username : String
  avatar : String
  pos : String
  currentRoomNumber : String
  queue : List String
  cap : Nat
  closed : Bool
deriving DecidableEq

/-- Embeds `protocol.Player` as written by room.go. -/
structure PlayerRec where
  username : String
  pos : String
  avatar : String
deriving DecidableEq

/-- Embeds the room's authoritative state: `Clients`,
`GameState.Players`, `GameState.PosToUsername`, `GameState.Map`, `Tick`. -/
structure RoomState where
  clients : List Conn
  players : List (String × PlayerRec)
  posIndex : List (String × String)
  map : GameMap
  tick : Nat

/-- First client whose `Username` matches (the lookup loops in
`UpdatePlayerPosition` and `HandleDirectMessage`). -/
def findConn (username : String) : List Conn → Option Conn
  | [] => none
  | c :: t => if c.username = username then some c else findConn username t

/-- Updates the first matching client's position and sub-room, as the
loop body of `UpdatePlayerPosition` does before returning. -/
def setConnPos (username newPos newRoom : String) : List Conn → List Conn
  | [] => []
  | c :: t =>
    if c.username = username then
      { c with pos := newPos, currentRoomNumber := newRoom } :: t
    else c :: setConnPos username newPos newRoom t

/-- The mutation block of `UpdatePlayerPosition` (room.go 325-351) once
the client with `oldPos` has been found: delete the old posIndex entry
(only when non-empty), update the client, write the new posIndex entry,
and update `GameState.Players` when the username is present there. -/
def applyMove (r : RoomState) (username newPos newRoom oldPos : String) : RoomState :=
  let pi1 := if oldPos = "" then r.posIndex else alErase oldPos r.posIndex
  let pi2 := alInsert newPos username pi1
  let players' :=
    match alLookup username r.players with
    | some p => alInsert username { p with pos := newPos } r.players
    | none => r.players
  { r with clients := setConnPos username newPos newRoom r.clients,
           posIndex := pi2, players := players' }

/-- Looks up the moving client and applies the move; a missing client
falls through the loop with no mutation. -/
def tryMove (r : RoomState) (username newPos newRoom : String) : RoomState :=
  match findConn username r.clients with
  | some c => applyMove r username newPos newRoom c.pos
  | none => r

/-- Embeds `Room.UpdatePlayerPosition` (room.go 306-354). -/
def UpdatePlayerPosition (r : RoomState) (username : String) (x y : Int) : RoomState :=
  if canAvatarFitAt r.map x y then
    let newPos := posKey x y
    let newRoom := getRoomNumberFromPosition r.map x y
    match alLookup newPos r.posIndex with
    | some u => if u = username then tryMove r username newPos newRoom else r
    | none => tryMove r username newPos newRoom
  else r

/-- Insert/replace a client keyed by `ID` (Go `r.Clients[client.ID] = client`). -/
def insertClient (c : Conn) : List Conn → List Conn
  | [] => [c]
  | c' :: t => if c'.id = c.id then c :: t else c' :: insertClient c t

/-- The `RoomJoined` frame sent to a registering client (payload elided). -/
def roomJoinedFrame : String := "room_joined"

/-- The spawn position `handleRegister` assigns: the sampled position,
or the fixed fallback "52:120" when the search fails (room.go 139-144). -/
def registerSpawnPos (m : GameMap) (pi : List (String × String))
    (attempts : List (Int × Int)) : String :=
  (findRandomSpawnPosition m pi attempts).getD "52:120"

/-- Embeds `Room.handleRegister` (room.go 134-175): assign the spawn
position and sub-room, insert into `Clients`, `Players`, `PosToUsername`,
and enqueue the `RoomJoined` frame on the joining client's channel. -/
def handleRegister (r : RoomState) (c : Conn) (attempts : List (Int × Int)) : RoomState :=
  let posStr := registerSpawnPos r.map r.posIndex attempts
  let xy := decodePos posStr
  let c' := { c with pos := posStr,
                     currentRoomNumber := getRoomNumberFromPosition r.map xy.1 xy.2,
                     queue := c.queue ++ [roomJoinedFrame] }
  { r with clients := insertClient c' r.clients,
           players := alInsert c.username
             { username := c.username, pos := posStr, avatar := c.avatar } r.players,
           posIndex := alInsert posStr c.username r.posIndex }

/-- Embeds `Room.handleUnregister` (room.go 177-188): when the client is
present, delete it from `Clients` and close its send channel.  The
closed connection object is returned alongside the new room state so
the channel closure is observable; `Players` and `PosToUsername` are
not touched by the source. -/
def handleUnregister (r : RoomState) (c : Conn) : RoomState × Option Conn :=
  if r.clients.any fun x => x.id == c.id then
    ({ r with clients := r.clients.filter fun x => x.id != c.id },
     some { c with closed := true })
  else (r, none)

/-- A connection's send channel has free space (the non-blocking send of
`handleBroadcast` succeeds). -/
def hasSpace (c : Conn) : Bool := c.queue.length < c.cap

/-- Enqueue a frame on a connection's send channel. -/
def enqueueFrame (msg : String) (c : Conn) : Conn := { c with queue := c.queue ++ [msg] }

/-- Close a connection's send channel. -/
def closeConn (c : Conn) : Conn := { c with closed := true }

/-- The fan-out loop of `handleBroadcast` (room.go 190-202): clients with
queue space get the frame enqueued and are kept; clients with a full
queue are closed and dropped.  Returns (kept clients, dropped clients). -/
def broadcastClients (msg : String) : List Conn → List Conn × List Conn
  | [] => ([], [])
  | c :: t =>
    let r := broadcastClients msg t
    if hasSpace c then (enqueueFrame msg c :: r.1, r.2)
    else (r.1, closeConn c :: r.2)

/-- Embeds `Room.handleBroadcast`: the new room state plus the list of
dropped (closed) slow consumers. -/
def handleBroadcast (r : RoomState) (msg : String) : RoomState × List Conn :=
  let bc := broadcastClients msg r.clients
  ({ r with clients := bc.1 }, bc.2)

/-! ### Room invariants I1 and I3 (spec section 3) -/

/-- Invariant I1: `posIndex[p] = u` iff `players[u].position = p`. -/
def InvI1 (r : RoomState) : Prop :=
  ∀ p u, alLookup p r.posIndex = some u ↔
    ∃ pl, alLookup u r.players = some pl ∧ pl.pos = p

/-- Invariant I3: no two distinct usernames map to the same position. -/
def InvI3 (r : RoomState) : Prop :=
  ∀ u₁ u₂ pl₁ pl₂, alLookup u₁ r.players = some pl₁ →
    alLookup u₂ r.players = some pl₂ → pl₁.pos = pl₂.pos → u₁ = u₂

/-! ### RiddleEngine (treasure_hunt.go) -/

/-- Embeds `GeminiRiddle` (gemini.go). -/
structure Riddle where
  question : String
  answer : String
  hint : String
deriving DecidableEq

/-- Embeds the mutable fields of `TreasureHuntManager` (treasure_hunt.go
22-34); announcements keep their messages (timestamps elided). -/
structure EngineState where
  currentRiddle : Option Riddle
  currentRound : Nat
  isSolved : Bool
  winner : String
  showHint : Bool
  waitingForNext : Bool
  gameOver : Bool
  announcements : List String
deriving DecidableEq

/-- ASCII embedding of `unicode.IsSpace` for the characters TrimSpace strips. -/
def isSpaceGo (c : Char) : Bool :=
  c == ' ' || c == '\t' || c == '\n' || c == '\x0b' || c == '\x0c' || c == '\r'

/-- Embeds `strings.TrimSpace`: drop whitespace from both ends. -/
def goTrimSpace (s : String) : String :=
  ⟨((s.data.dropWhile isSpaceGo).reverse.dropWhile isSpaceGo).reverse⟩

/-- Embeds `strings.EqualFold` at ASCII precision: equality after
lower-casing every character. -/
def eqFold (a b : String) : Bool :=
  a.data.map Char.toLower == b.data.map Char.toLower

/-- The WIN announcement text of `CheckGuess` (treasure_hunt.go 205). -/
def winAnnouncement (username ans : String) : String :=
  "🏆 WINNER: " ++ username ++ " guessed \x27" ++ ans ++ "\x27 correctly!"

/-- The timeout announcement text of `nextRiddle` (treasure_hunt.go 148). -/
def timesUpAnnouncement (ans : String) : String :=
  "Time\x27s up! The answer was: " ++ ans

/-- Embeds `TreasureHuntManager.CheckGuess` (treasure_hunt.go 188-232):
returns the new engine state and the boolean result.  The 5-second
`time.AfterFunc` scheduled on a win is modelled by the separate
`EngineEvent.resetSignal` step. -/
def CheckGuess (s : EngineState) (username guess : String) : EngineState × Bool :=
  if s.isSolved || s.currentRiddle.isNone || s.waitingForNext || s.gameOver then
    (s, false)
  else
    match s.currentRiddle with
    | none => (s, false)
    | some r =>
      let cleanGuess := goTrimSpace guess
      let cleanAnswer := goTrimSpace r.answer
      if eqFold cleanGuess cleanAnswer then
        ({ s with isSolved := true, winner := username, waitingForNext := true,
                  announcements :=
                    s.announcements ++ [winAnnouncement username cleanAnswer] },
         true)
      else (s, false)

/-- Embeds `TreasureHuntManager.nextRiddle` (treasure_hunt.go 109-170);
`gen` is the riddle produced by `GenerateRiddle` (or its fallback). -/
def nextRiddle (s : EngineState) (gen : Riddle) : EngineState :=
  if s.currentRound > 3 then
    { s with gameOver := true, currentRiddle := none, isSolved := true,
             winner := "", announcements := [] }
  else
    let s1 :=
      match s.currentRiddle with
      | some r =>
        if s.isSolved then s
        else { s with announcements := s.announcements ++ [timesUpAnnouncement r.answer] }
      | none => s
    { s1 with currentRiddle := some gen, currentRound := s.currentRound + 1,
              isSolved := false, winner := "", showHint := false,
              waitingForNext := false }

/-- Embeds `TreasureHuntManager.revealHint` (treasure_hunt.go 172-186). -/
def revealHint (s : EngineState) : EngineState :=
  if !s.isSolved && !s.waitingForNext && !s.gameOver then
    { s with showHint := true }
  else s

/-- The events that drive the engine, from `StartGameLoop`
(treasure_hunt.go 58-107): the 1-minute ticker, the post-win reset
signal (`resetCh`, sent 5 s after a winning guess), the 30-second hint
ticker, and a guess call.  Timer-driven events carry the riddle the
external generator supplies to `nextRiddle`. -/
inductive EngineEvent where
  | minuteTick (gen : Riddle)
  | resetSignal (gen : Riddle)
  | hintTick
  | guessEv (username text : String)

/-- The engine's step function, straight from the `select` loop of
`StartGameLoop`: the ticker skips when the game is over or while the
post-win freeze (`waitingForNext`) is active; the reset signal always
runs `nextRiddle`; the hint ticker runs `revealHint`. -/
def engineStep (s : EngineState) : EngineEvent → EngineState
  | .minuteTick g => if s.gameOver then s else if s.waitingForNext then s else nextRiddle s g
  | .resetSignal g => nextRiddle s g
  | .hintTick => revealHint s
  | .guessEv u t => (CheckGuess s u t).1

/-- The engine is in the spec's Active phase: `getStateLocked` renders
the question (not game over, a riddle present, not solved). -/
def isActiveState (s : EngineState) : Bool :=
  !s.gameOver && !s.isSolved && s.currentRiddle.isSome

/-- The engine is in the spec's Solved phase: `getStateLocked` renders
the SOLVED banner (not game over, solved). -/
def isSolvedState (s : EngineState) : Bool :=
  !s.gameOver && s.isSolved

/-- Runs a round's guesses in sequence, collecting each call's boolean
result (the calls a single round sees between two `nextRiddle` events). -/
def runGuesses (s : EngineState) : List (String × String) → List Bool
  | [] => []
  | (u, g) :: t => (CheckGuess s u g).2 :: runGuesses (CheckGuess s u g).1 t

/-! ### UserRegistry (user.go) -/

/-- Embeds `User` (user.go 10-14). -/
structure User where
  id : String
  username : String
  avatar : List Int
deriving DecidableEq

/-- Embeds `UserManager` (user.go 17-21): both indexes. -/
structure UserManager where
  users : List (String × User)
  usernames : List (String × User)
deriving DecidableEq

/-- Embeds `UserManager.GetOrCreateUserByUsername` (user.go 31-52);
`freshId` stands for `uuid.New().String()`. -/
def GetOrCreateUserByUsername (um : UserManager) (username : String)
    (avatar : List Int) (freshId : String) : (User × Bool) × UserManager :=
  match alLookup username um.usernames with
  | some u => ((u, true), um)
  | none =>
    let u : User := { id := freshId, username := username, avatar := avatar }
    ((u, false),
     { users := alInsert freshId u um.users,
       usernames := alInsert username u um.usernames })

/-! ### ChatManager direct messages (chat.go) -/

/-- A stored direct message (`ChatMessage` with type "dm"; id and
timestamp elided). -/
structure DMRecord where
  fromId : String
  toId : String
  message : String
deriving DecidableEq

/-- The direct-message log of `ChatManager`: `dmMessages` keyed by the
sorted id pair. -/
structure ChatState where
  dmMessages : List (String × List DMRecord)
deriving DecidableEq

/-- Embeds `getDMKey` (chat.go 336-341). -/
def dmKey (a b : String) : String :=
  if a < b then a ++ ":" ++ b else b ++ ":" ++ a

/-- The encoded `chat_message` frame (payload elided). -/
def dmFrame : String := "chat_message"

/-- Embeds `ChatManager.HandleDirectMessage` (chat.go 102-153): locate
the target by username in the room's clients; if absent, return with
nothing stored and nothing sent; otherwise append to the pair's history
and send one frame each to target and sender (in that order).  The
second component lists (recipient connection id, frame) sends. -/
def HandleDirectMessage (cm : ChatState) (roomClients : List Conn) (fromClient : Conn)
    (toUsername message : String) : ChatState × List (String × String) :=
  match findConn toUsername roomClients with
  | none => (cm, [])
  | some target =>
    let key := dmKey fromClient.id target.id
    let hist := (alLookup key cm.dmMessages).getD []
    ({ dmMessages :=
        alInsert key
          (hist ++ [{ fromId := fromClient.id, toId := target.id, message := message }])
          cm.dmMessages },
     [(target.id, dmFrame), (fromClient.id, dmFrame)])

/-! ### Concrete states used by witnesses and counterexamples -/

/-- A map whose every cell is walkable floor. -/
def mapAllSpace : GameMap := fun _ _ => " "

/-- A map whose every cell is an entrance label "e": fit-walkable but
not spawn-walkable. -/
def mapAllE : GameMap := fun _ _ => "e"

/-- The initial riddle of the `Manager` singleton (treasure_hunt.go 37-44). -/
def riddle0 : Riddle :=
  { question := "I have keys but no locks. I have a space but no room. You can enter, but never leave. What am I?"
    answer := "keyboard"
    hint := "I am an input device." }

/-- A second riddle, standing for a fresh `GenerateRiddle` result. -/
def riddle1 : Riddle :=
  { question := "What has a head and a tail but no body?", answer := "coin", hint := "Flip it." }

/-- The engine as initialized in the `Manager` singleton: round 1,
the default riddle, all flags clear. -/
def engineInit : EngineState :=
  { currentRiddle := some riddle0, currentRound := 1, isSolved := false,
    winner := "", showHint := false, waitingForNext := false, gameOver := false,
    announcements := [] }

/-- An engine state just after a winning guess in round 2. -/
def engineSolved : EngineState :=
  { currentRiddle := some riddle0, currentRound := 2, isSolved := true,
    winner := "alice", showHint := false, waitingForNext := true, gameOver := false,
    announcements := [] }

/-- An engine state in round 3, Active (the last round the daily limit
should allow). -/
def engineRound3 : EngineState :=
  { currentRiddle := some riddle0, currentRound := 3, isSolved := false,
    winner := "", showHint := false, waitingForNext := false, gameOver := false,
    announcements := [] }

/-- A registered connection for the player alice at "52:120". -/
def aliceConn : Conn :=
  { id := "c1", name := "alice", username := "alice", avatar := "0",
    pos := "52:120", currentRoomNumber := "", queue := [], cap := 256,
    closed := false }

/-- The player record matching `aliceConn`. -/
def alicePlayer : PlayerRec :=
  { username := "alice", pos := "52:120", avatar := "0" }

/-- A one-player room on the all-floor map with consistent indexes. -/
def roomAlice : RoomState :=
  { clients := [aliceConn], players := [("alice", alicePlayer)],
    posIndex := [("52:120", "alice")], map := mapAllSpace, tick := 0 }

/-- A connection whose send queue is full (capacity 1, one frame queued). -/
def slowConn : Conn :=
  { id := "c2", name := "bob", username := "bob", avatar := "1",
    pos := "10:10", currentRoomNumber := "", queue := ["old"], cap := 1,
    closed := false }

/-- A two-player room: alice has queue space, bob's queue is full. -/
def roomTwo : RoomState :=
  { clients := [aliceConn, slowConn],
    players := [("alice", alicePlayer), ("bob", { username := "bob", pos := "10:10", avatar := "1" })],
    posIndex := [("52:120", "alice"), ("10:10", "bob")], map := mapAllSpace, tick := 0 }

/-- A stored profile for alice with avatar [0, 1, 2]. -/
def userAlice : User := { id := "id0", username := "alice", avatar := [0, 1, 2] }

/-- A registry already holding alice's profile. -/
def umAlice : UserManager :=
  { users := [("id0", userAlice)], usernames := [("alice", userAlice)] }

/-! ## Helper lemmas -/

theorem alLookup_insert_self {α : Type} (k : String) (v : α) (l : List (String × α)) :
    alLookup k (alInsert k v l) = some v := by
  induction l with
  | nil => simp [alInsert, alLookup]
  | cons p t ih =>
    obtain ⟨k', v'⟩ := p
    by_cases h : k' = k
    · simp [alInsert, h, alLookup]
    · simp [alInsert, h, alLookup, ih]

theorem alLookup_insert_ne {α : Type} (k q : String) (v : α) (l : List (String × α))
    (h : q ≠ k) : alLookup q (alInsert k v l) = alLookup q l := by
  have hne : ¬ k = q := fun hh => h hh.symm
  induction l with
  | nil => simp [alInsert, alLookup, hne]
  | cons p t ih =>
    obtain ⟨k', v'⟩ := p
    by_cases hk : k' = k
    · subst hk
      simp [alInsert, alLookup, hne]
    · by_cases hq : k' = q
      · subst hq
        simp [alInsert, hk, alLookup]
      · simp [alInsert, hk, alLookup, hq, ih]

theorem alLookup_eq_none {α : Type} (k : String) (l : List (String × α))
    (h : k ∉ l.map Prod.fst) : alLookup k l = none := by
  induction l with
  | nil => simp [alLookup]
  | cons p t ih =>
    obtain ⟨k', v'⟩ := p
    simp only [List.map_cons, List.mem_cons] at h
    push_neg at h
    have h1 : ¬ k' = k := fun hh => h.1 hh.symm
    simp [alLookup, h1, ih h.2]

theorem alLookup_erase_self {α : Type} (k : String) (l : List (String × α))
    (h : (l.map Prod.fst).Nodup) : alLookup k (alErase k l) = none := by
  induction l with
  | nil => simp [alErase, alLookup]
  | cons p t ih =>
    obtain ⟨k', v'⟩ := p
    simp only [List.map_cons, List.nodup_cons] at h
    by_cases hk : k' = k
    · subst hk
      simpa [alErase] using alLookup_eq_none k' t h.1
    · simp [alErase, hk, alLookup, ih h.2]

theorem alLookup_erase_ne {α : Type} (k q : String) (l : List (String × α))
    (h : q ≠ k) : alLookup q (alErase k l) = alLookup q l := by
  have hne : ¬ k = q := fun hh => h hh.symm
  induction l with
  | nil => simp [alErase, alLookup]
  | cons p t ih =>
    obtain ⟨k', v'⟩ := p
    by_cases hk : k' = k
    · subst hk
      simp [alErase, alLookup, hne]
    · simp only [alErase, hk, if_false, alLookup]
      by_cases hq : k' = q <;> simp [hq, ih]

/-- Every call of `CheckGuess` either leaves the state unchanged and
returns false, or returns true and leaves the round solved. -/
theorem checkGuess_cases (s : EngineState) (u g : String) :
    CheckGuess s u g = (s, false) ∨
    ((CheckGuess s u g).2 = true ∧ (CheckGuess s u g).1.isSolved = true) := by
  by_cases hguard :
      (s.isSolved || s.currentRiddle.isNone || s.waitingForNext || s.gameOver) = true
  · left
    simp [CheckGuess, hguard]
  · rw [Bool.not_eq_true] at hguard
    cases hcr : s.currentRiddle with
    | none =>
      left
      simp [CheckGuess, hguard, hcr]
    | some r =>
      simp only [Bool.or_eq_false_iff] at hguard
      obtain ⟨⟨⟨hs, hn⟩, hw⟩, hg⟩ := hguard
      by_cases he : eqFold (goTrimSpace g) (goTrimSpace r.answer) = true
      · right
        simp [CheckGuess, hs, hw, hg, hcr, he]
      · left
        simp [CheckGuess, hs, hw, hg, hcr, he]

/-- A solved engine rejects every guess without changing state. -/
theorem checkGuess_of_solved (s : EngineState) (u g : String) (h : s.isSolved = true) :
    CheckGuess s u g = (s, false) := by
  simp [CheckGuess, h]

/-- From a solved state, every guess in a sequence returns false. -/
theorem runGuesses_of_solved (s : EngineState) (h : s.isSolved = true)
    (gs : List (String × String)) : runGuesses s gs = gs.map fun _ => false := by
  induction gs with
  | nil => rfl
  | cons p t ih =>
    obtain ⟨u, g⟩ := p
    simp [runGuesses, checkGuess_of_solved s u g h, ih]

/-- A spawn-walkable cell is fit-walkable. -/
theorem cellSpawn_fit (v : String) (h : cellSpawnWalkable v = true) :
    cellFitWalkable v = true := by
  simp only [cellSpawnWalkable, Bool.or_eq_true, beq_iff_eq] at h
  rcases h with h | h <;> subst h <;> decide

/-- A position that passes the spawn validity loop passes `canAvatarFitAt`. -/
theorem spawnValid_fits (m : GameMap) (x y : Int) (h : spawnValidAt m x y = true) :
    canAvatarFitAt m x y = true := by
  simp only [spawnValidAt, List.all_eq_true] at h
  simp only [canAvatarFitAt, List.all_eq_true]
  intro d hd
  have hh := h d hd
  simp only [Bool.and_eq_true] at hh ⊢
  exact ⟨hh.1, cellSpawn_fit _ hh.2⟩

/-- Whatever the spawn search returns came from the attempt list and was
accepted by the spawn acceptance test. -/
theorem findSpawn_mem (m : GameMap) (pi : List (String × String)) (l : List (Int × Int))
    (p : String) (h : findSpawn m pi l = some p) :
    ∃ xy ∈ l, p = posKey xy.1 xy.2 ∧ spawnAccept m pi xy.1 xy.2 = true := by
  induction l with
  | nil => simp [findSpawn] at h
  | cons a t ih =>
    obtain ⟨x, y⟩ := a
    by_cases hv : spawnValidAt m x y = true
    · cases hLook : alLookup (posKey x y) pi with
      | some v =>
        simp only [findSpawn, if_pos hv, hLook, Option.isSome_some, if_pos] at h
        obtain ⟨xy, hmem, hrest⟩ := ih h
        exact ⟨xy, List.mem_cons_of_mem _ hmem, hrest⟩
      | none =>
        simp only [findSpawn, if_pos hv, hLook, Option.isSome_none,
          Bool.false_eq_true, if_false, Option.some.injEq] at h
        refine ⟨(x, y), List.mem_cons_self _ _, h.symm, ?_⟩
        simp [spawnAccept, hv, hLook]
    · rw [Bool.not_eq_true] at hv
      simp only [findSpawn, hv, Bool.false_eq_true, if_false] at h
      obtain ⟨xy, hmem, hrest⟩ := ih h
      exact ⟨xy, List.mem_cons_of_mem _ hmem, hrest⟩

/-- The broadcast fan-out partitions the clients: those with queue space
are kept with the frame appended, the rest are closed and dropped. -/
theorem broadcastClients_eq (msg : String) (l : List Conn) :
    broadcastClients msg l
      = ((l.filter hasSpace).map (enqueueFrame msg),
         (l.filter fun c => !hasSpace c).map closeConn) := by
  induction l with
  | nil => rfl
  | cons c t ih =>
    by_cases h : hasSpace c = true
    · simp [broadcastClients, h, ih, List.filter_cons]
    · rw [Bool.not_eq_true] at h
      simp [broadcastClients, h, ih, List.filter_cons]

/-- The queue contents of every client are untouched by the client-update
loop of `UpdatePlayerPosition`. -/
theorem setConnPos_queue_map (username newPos newRoom : String) (l : List Conn) :
    (setConnPos username newPos newRoom l).map Conn.queue = l.map Conn.queue := by
  induction l with
  | nil => rfl
  | cons c t ih =>
    by_cases h : c.username = username <;> simp [setConnPos, h, ih]

/-- The client-update loop updates exactly the first matching client's
position and sub-room. -/
theorem findConn_setConnPos (username newPos newRoom : String) (l : List Conn) (c : Conn)
    (h : findConn username l = some c) :
    findConn username (setConnPos username newPos newRoom l)
      = some { c with pos := newPos, currentRoomNumber := newRoom } := by
  induction l with
  | nil => simp [findConn] at h
  | cons c₀ t ih =>
    by_cases hc : c₀.username = username
    · simp only [findConn, if_pos hc] at h
      obtain rfl := Option.some.inj h
      simp [setConnPos, hc, findConn]
    · simp only [findConn, if_neg hc] at h
      simp [setConnPos, hc, findConn, ih h]

/-- Acceptance postconditions of a move once the moving client is found
and the move is applied. -/
theorem applyMove_accept (r : RoomState) (username : String) (x y : Int) (c₀ : Conn)
    (hpi : (r.posIndex.map Prod.fst).Nodup)
    (hres : UpdatePlayerPosition r username x y
        = applyMove r username (posKey x y) (getRoomNumberFromPosition r.map x y) c₀.pos)
    (hfind : findConn username r.clients = some c₀) :
    alLookup (posKey x y) (UpdatePlayerPosition r username x y).posIndex = some username ∧
    (c₀.pos ≠ "" → c₀.pos ≠ posKey x y →
        alLookup c₀.pos (UpdatePlayerPosition r username x y).posIndex = none) ∧
    findConn username (UpdatePlayerPosition r username x y).clients
        = some { c₀ with pos := posKey x y,
                         currentRoomNumber := getRoomNumberFromPosition r.map x y } ∧
    (∀ p, alLookup username r.players = some p →
        alLookup username (UpdatePlayerPosition r username x y).players
            = some { p with pos := posKey x y }) := by
  refine ⟨?_, ?_, ?_, ?_⟩
  · rw [hres]
    simp only [applyMove]
    exact alLookup_insert_self _ _ _
  · intro hold hneq
    rw [hres]
    simp only [applyMove, if_neg hold]
    rw [alLookup_insert_ne _ _ _ _ hneq]
    exact alLookup_erase_self _ _ hpi
  · rw [hres]
    simp only [applyMove]
    exact findConn_setConnPos _ _ _ _ _ hfind
  · intro p hp
    rw [hres]
    simp only [applyMove, hp]
    exact alLookup_insert_self _ _ _

/-! ## Claim theorems -/

/-- Claim C2 (code bug evaluated at the failing input): unregistering
the registered player alice removes her connection from `Clients` and
closes its send channel, but leaves both `GameState.Players` and
`GameState.PosToUsername` holding her entries — the connection is NOT
removed from all indexes, contradicting the claim (and the spec's own
`unregister` contract). -/
theorem unregister_keeps_players_posIndex :
    (handleUnregister roomAlice aliceConn).1.clients = [] ∧
    (handleUnregister roomAlice aliceConn).1.posIndex = [("52:120", "alice")] ∧
    (handleUnregister roomAlice aliceConn).1.players = [("alice", alicePlayer)] ∧
    (handleUnregister roomAlice aliceConn).2 = some { aliceConn with closed := true } := by
  decide

/-- Claim C4: while a riddle is Active and unsolved (a riddle present,
not solved, the post-win freeze clear, not game over), `CheckGuess`
returns true iff the guess equals the answer after trimming surrounding
whitespace, under case-insensitive comparison (the source trims both
sides, per "trimmed equality"); a winning call marks the round solved,
records the guesser as winner, and appends a WIN announcement naming
the guesser. -/
theorem riddle_guess_spec (s : EngineState) (username text : String) (r : Riddle)
    (hr : s.currentRiddle = some r) (hs : s.isSolved = false)
    (hw : s.waitingForNext = false) (hg : s.gameOver = false) :
    ((CheckGuess s username text).2 = true ↔
      eqFold (goTrimSpace text) (goTrimSpace r.answer) = true) ∧
    ((CheckGuess s username text).2 = true →
      (CheckGuess s username text).1.isSolved = true ∧
      (CheckGuess s username text).1.winner = username ∧
      (CheckGuess s username text).1.waitingForNext = true ∧
      (CheckGuess s username text).1.announcements
        = s.announcements ++ [winAnnouncement username (goTrimSpace r.answer)]) := by
  by_cases he : eqFold (goTrimSpace text) (goTrimSpace r.answer) = true
  · constructor
    · simp [CheckGuess, hr, hs, hw, hg, he]
    · intro _
      simp [CheckGuess, hr, hs, hw, hg, he]
  · constructor
    · simp [CheckGuess, hr, hs, hw, hg, he]
    · intro hcontra
      simp [CheckGuess, hr, hs, hw, hg, he] at hcontra

/-- Claim C4 witness: the engine's initial state (answer "keyboard") and
the guess " Keyboard " — the winning call returns true. -/
theorem riddle_guess_spec_witness :
    (CheckGuess engineInit "alice" " Keyboard ").2 = true :=
  ((riddle_guess_spec engineInit "alice" " Keyboard " riddle0 rfl rfl rfl rfl).1).mpr
    (by decide)

/-- Claim C5: within one round (a sequence of `CheckGuess` calls with no
intervening `nextRiddle`), at most one call returns true; a winning call
leaves the round solved, and every guess made while solved, while the
post-win freeze is active (the engine's stand-in for a cooldown; it has
no separate cooldown state), or after game over returns false. -/
theorem riddle_one_winner (s : EngineState) (gs : List (String × String)) :
    ((runGuesses s gs).count true ≤ 1) ∧
    (∀ u g, (CheckGuess s u g).2 = true → (CheckGuess s u g).1.isSolved = true) ∧
    (∀ u g, s.isSolved = true ∨ s.waitingForNext = true ∨ s.gameOver = true →
      (CheckGuess s u g).2 = false) := by
  refine ⟨?_, ?_, ?_⟩
  · induction gs generalizing s with
    | nil => simp [runGuesses]
    | cons p t ih =>
      obtain ⟨u, g⟩ := p
      rcases checkGuess_cases s u g with hcase | hcase
      · have h2 : (CheckGuess s u g).2 = false := by rw [hcase]
        have h1 : (CheckGuess s u g).1 = s := by rw [hcase]
        rw [runGuesses, h1, h2]
        simpa [List.count_cons] using ih s
      · obtain ⟨h2, hsolved⟩ := hcase
        rw [runGuesses, h2, runGuesses_of_solved _ hsolved]
        simp [List.count_cons, List.count_replicate]
  · intro u g h2
    rcases checkGuess_cases s u g with hcase | hcase
    · rw [hcase] at h2
      cases h2
    · exact hcase.2
  · intro u g hdis
    rcases hdis with h | h | h <;> simp [CheckGuess, h]

/-- Claim C5 witness: a solved engine state rejects a further guess of
the correct answer. -/
theorem riddle_one_winner_witness :
    (CheckGuess engineSolved "bob" "keyboard").2 = false :=
  (riddle_one_winner engineSolved []).2.2 "bob" "keyboard" (Or.inl rfl)

/-- Claim C6 counterexample: from a Solved state, a single reset-signal
step (the one scheduled 5 seconds after the win) takes the engine
directly to Active — no intermediate state, hence no Cooldown phase, is
passed; the engine in the source has no Cooldown state at all. -/
theorem solved_steps_to_active :
    isSolvedState engineSolved = true ∧
    isActiveState (engineStep engineSolved (.resetSignal riddle1)) = true := by
  decide

/-- Claim C6 amended: a solved round is frozen while `waitingForNext`
holds (the minute ticker skips it); the reset signal sent
`winFreezeDuration` (5 s) after the win then runs `nextRiddle`, which
moves the engine directly from Solved to Active (or to GameOver past
the round limit) — there is no intervening Cooldown phase. -/
theorem solved_freeze_then_active (s : EngineState) (g : Riddle)
    (hsol0 : isSolvedState s = true) :
    (s.waitingForNext = true → engineStep s (.minuteTick g) = s) ∧
    (s.currentRound ≤ 3 → isActiveState (engineStep s (.resetSignal g)) = true) ∧
    (3 < s.currentRound → (engineStep s (.resetSignal g)).gameOver = true) := by
  simp only [isSolvedState, Bool.and_eq_true, Bool.not_eq_true'] at hsol0
  obtain ⟨hg, hsol⟩ := hsol0
  refine ⟨?_, ?_, ?_⟩
  · intro hw
    simp [engineStep, hg, hw]
  · intro hle
    have hnot : ¬ s.currentRound > 3 := by omega
    simp only [engineStep, nextRiddle, if_neg hnot]
    cases hcr : s.currentRiddle <;> simp [hsol, isActiveState, hg]
  · intro hgt
    simp only [engineStep, nextRiddle, if_pos hgt]

/-- Claim C6 witness: the concrete solved state is frozen under the
minute tick and becomes Active on the reset signal. -/
theorem solved_freeze_then_active_witness :
    engineStep engineSolved (.minuteTick riddle1) = engineSolved ∧
    isActiveState (engineStep engineSolved (.resetSignal riddle1)) = true := by
  have h := solved_freeze_then_active engineSolved riddle1 (by decide)
  exact ⟨h.1 rfl, h.2.1 (by decide)⟩

/-- Claim C7 (code bug evaluated at the failing input): `nextRiddle`
guards with `currentRound > 3`, so from round 3 it starts round 4 as a
live Active riddle instead of entering GameOver — contradicting the
claim and the source's own comment that moving past round 3 is Game
Over (the daily limit of 3 questions). -/
theorem round4_becomes_active :
    engineRound3.currentRound = 3 ∧
    (nextRiddle engineRound3 riddle1).currentRound = 4 ∧
    (nextRiddle engineRound3 riddle1).gameOver = false ∧
    (nextRiddle engineRound3 riddle1).currentRiddle = some riddle1 ∧
    isActiveState (nextRiddle engineRound3 riddle1) = true := by
  decide

/-- Claim C9: `GetOrCreateUserByUsername` returns the stored profile
with `preexisting = true` and leaves the registry unchanged when the
username exists (the supplied avatar is ignored — the returned profile
is exactly the stored one); otherwise it creates, stores and returns a
profile with the supplied avatar and `preexisting = false`. -/
theorem getOrCreate_spec (um : UserManager) (username : String) (avatar : List Int)
    (freshId : String) :
    (∀ u, alLookup username um.usernames = some u →
        GetOrCreateUserByUsername um username avatar freshId = ((u, true), um)) ∧
    (alLookup username um.usernames = none →
        (GetOrCreateUserByUsername um username avatar freshId).1
            = ({ id := freshId, username := username, avatar := avatar }, false) ∧
        alLookup username (GetOrCreateUserByUsername um username avatar freshId).2.usernames
            = some { id := freshId, username := username, avatar := avatar }) := by
  constructor
  · intro u hu
    simp [GetOrCreateUserByUsername, hu]
  · intro hn
    constructor
    · simp [GetOrCreateUserByUsername, hn]
    · simp [GetOrCreateUserByUsername, hn, alLookup_insert_self]

/-- Claim C9 witness: a returning alice (stored avatar [0,1,2]) joining
with a different supplied avatar gets her original profile back,
`preexisting = true`, and the registry is unchanged. -/
theorem getOrCreate_spec_witness :
    GetOrCreateUserByUsername umAlice "alice" [9, 9, 9] "idX" = ((userAlice, true), umAlice) :=
  (getOrCreate_spec umAlice "alice" [9, 9, 9] "idX").1 userAlice (by decide)

/-- Claim C10: a direct message whose target username has no connection
in the sender's room is dropped atomically — the chat store is returned
unchanged and no frame is sent to any connection, the sender included. -/
theorem dm_unknown_target_dropped (cm : ChatState) (roomClients : List Conn)
    (fromClient : Conn) (toUsername message : String)
    (h : findConn toUsername roomClients = none) :
    HandleDirectMessage cm roomClients fromClient toUsername message = (cm, []) := by
  simp [HandleDirectMessage, h]

/-- Claim C10 witness: alice messaging the absent bob changes nothing
and sends nothing. -/
theorem dm_unknown_target_dropped_witness :
    HandleDirectMessage { dmMessages := [] } [aliceConn] aliceConn "bob" "hi"
      = ({ dmMessages := [] }, []) :=
  dm_unknown_target_dropped { dmMessages := [] } [aliceConn] aliceConn "bob" "hi" (by decide)

/-- Claim C3 counterexample: the spawn loop is strictly stricter than
`avatarFitsAt` — on a map of entrance cells "e" the footprint at (5,5)
passes `canAvatarFitAt` and the position is unoccupied, yet the spawn
acceptance test rejects it (spawn requires every cell to be " " or "@"). -/
theorem spawn_stricter_than_fits :
    canAvatarFitAt mapAllE 5 5 = true ∧
    alLookup (posKey 5 5) ([] : List (String × String)) = none ∧
    spawnAccept mapAllE [] 5 5 = false := by
  decide

/-- Claim C3 amended: a sampled position is accepted iff all nine cells
of its 3×3 footprint are in bounds and are " " or "@" AND `posIndex` has
no entry for the encoded position; acceptance therefore implies
`avatarFitsAt` and unoccupied (but not conversely); when no draw among
the 1000 attempts is accepted, registration falls back to the fixed
coordinate "52:120". -/
theorem spawn_placement (m : GameMap) (pi : List (String × String))
    (attempts : List (Int × Int)) :
    (∀ x y, spawnAccept m pi x y = true →
        canAvatarFitAt m x y = true ∧ alLookup (posKey x y) pi = none) ∧
    (findRandomSpawnPosition m pi attempts = none →
        registerSpawnPos m pi attempts = "52:120") ∧
    (∀ p, findRandomSpawnPosition m pi attempts = some p →
        ∃ xy ∈ attempts.take 1000, p = posKey xy.1 xy.2 ∧ spawnAccept m pi xy.1 xy.2 = true) := by
  refine ⟨?_, ?_, ?_⟩
  · intro x y h
    simp only [spawnAccept, Bool.and_eq_true] at h
    refine ⟨spawnValid_fits m x y h.1, ?_⟩
    simpa [Option.isNone_iff_eq_none] using h.2
  · intro h
    simp [registerSpawnPos, h]
  · intro p h
    simp only [findRandomSpawnPosition] at h
    exact findSpawn_mem m pi _ p h

/-- Claim C3 witness: on the all-floor map an accepted position indeed
satisfies `canAvatarFitAt` and is unoccupied. -/
theorem spawn_placement_witness :
    canAvatarFitAt mapAllSpace 5 5 = true ∧
    alLookup (posKey 5 5) ([] : List (String × String)) = none :=
  (spawn_placement mapAllSpace [] []).1 5 5 (by decide)

/-- Claim C8: on a broadcast, every connection with queue space receives
the frame appended at the end of its queue (FIFO order preserved) and
stays in the room; every connection with a full queue is closed and
removed from `connections`; and the kept clients — hence the delivery of
this frame and, the state being equal, of every later frame — are
exactly the same whether or not a full-queued (slow) connection was
present. -/
theorem broadcast_slow_consumer (r : RoomState) (msg : String) :
    ((handleBroadcast r msg).1.clients
        = (r.clients.filter hasSpace).map (enqueueFrame msg)) ∧
    ((handleBroadcast r msg).2
        = (r.clients.filter fun c => !hasSpace c).map closeConn) ∧
    (∀ c ∈ r.clients, hasSpace c = true →
        enqueueFrame msg c ∈ (handleBroadcast r msg).1.clients ∧
        (enqueueFrame msg c).queue = c.queue ++ [msg]) ∧
    (∀ c ∈ r.clients, hasSpace c = false →
        closeConn c ∈ (handleBroadcast r msg).2 ∧ (closeConn c).closed = true) ∧
    (∀ l₁ c l₂, r.clients = l₁ ++ c :: l₂ → hasSpace c = false →
        (handleBroadcast r msg).1.clients
          = (handleBroadcast { r with clients := l₁ ++ l₂ } msg).1.clients) := by
  refine ⟨?_, ?_, ?_, ?_, ?_⟩
  · simp [handleBroadcast, broadcastClients_eq]
  · simp [handleBroadcast, broadcastClients_eq]
  · intro c hc hs
    refine ⟨?_, rfl⟩
    simp only [handleBroadcast, broadcastClients_eq]
    exact List.mem_map_of_mem _ (List.mem_filter.mpr ⟨hc, hs⟩)
  · intro c hc hs
    refine ⟨?_, rfl⟩
    simp only [handleBroadcast, broadcastClients_eq]
    exact List.mem_map_of_mem _ (List.mem_filter.mpr ⟨hc, by simp [hs]⟩)
  · intro l₁ c l₂ hsplit hs
    simp only [handleBroadcast, broadcastClients_eq, hsplit]
    congr 1
    simp [List.filter_append, List.filter_cons, hs]

/-- Claim C8 witness: broadcasting to a room where alice has queue space
and bob's queue is full delivers to alice and drops (closes) bob. -/
theorem broadcast_slow_consumer_witness :
    enqueueFrame "m" aliceConn ∈ (handleBroadcast roomTwo "m").1.clients ∧
    closeConn slowConn ∈ (handleBroadcast roomTwo "m").2 := by
  have h := broadcast_slow_consumer roomTwo "m"
  exact ⟨(h.2.2.1 aliceConn (by decide) (by decide)).1,
         (h.2.2.2.1 slowConn (by decide) (by decide)).1⟩

/-- Claim C1: movement arbitration.  A move request leaves every send
queue untouched (no response frame in any case).  It is rejected with
the room state fully unchanged when the caller has no position on
record (no client with that username), when the 3×3 footprint does not
fit at the target, or when `posIndex` maps the encoded "newY:newX" to a
different username.  Otherwise the old posIndex entry is deleted, the
new one is set to the caller, the player record and the connection's
position move to the new encoding, and the connection's current
sub-room becomes the sub-room at the target. -/
theorem movePlayer_arbitration (r : RoomState) (username : String) (x y : Int)
    (hpi : (r.posIndex.map Prod.fst).Nodup) :
    ((UpdatePlayerPosition r username x y).clients.map Conn.queue
        = r.clients.map Conn.queue) ∧
    (findConn username r.clients = none → UpdatePlayerPosition r username x y = r) ∧
    (canAvatarFitAt r.map x y = false → UpdatePlayerPosition r username x y = r) ∧
    (∀ u, alLookup (posKey x y) r.posIndex = some u → u ≠ username →
        UpdatePlayerPosition r username x y = r) ∧
    (∀ c, findConn username r.clients = some c →
        canAvatarFitAt r.map x y = true →
        (∀ u, alLookup (posKey x y) r.posIndex = some u → u = username) →
        alLookup (posKey x y) (UpdatePlayerPosition r username x y).posIndex = some username ∧
        (c.pos ≠ "" → c.pos ≠ posKey x y →
            alLookup c.pos (UpdatePlayerPosition r username x y).posIndex = none) ∧
        findConn username (UpdatePlayerPosition r username x y).clients
            = some { c with pos := posKey x y,
                            currentRoomNumber := getRoomNumberFromPosition r.map x y } ∧
        (∀ p, alLookup username r.players = some p →
            alLookup username (UpdatePlayerPosition r username x y).players
                = some { p with pos := posKey x y })) := by
  by_cases hfit : canAvatarFitAt r.map x y = true
  · cases hocc : alLookup (posKey x y) r.posIndex with
    | some u =>
      by_cases hu : u = username
      · subst hu
        cases hfind : findConn u r.clients with
        | none =>
          have hres : UpdatePlayerPosition r u x y = r := by
            simp [UpdatePlayerPosition, hfit, hocc, tryMove, hfind]
          refine ⟨by rw [hres], fun _ => hres, fun _ => hres, fun _ _ _ => hres, ?_⟩
          intro c hc
          cases hc
        | some c₀ =>
          have hres : UpdatePlayerPosition r u x y
              = applyMove r u (posKey x y) (getRoomNumberFromPosition r.map x y) c₀.pos := by
            simp [UpdatePlayerPosition, hfit, hocc, tryMove, hfind]
          have hacc := applyMove_accept r u x y c₀ hpi hres hfind
          refine ⟨?_, ?_, ?_, ?_, ?_⟩
          · rw [hres]
            simp only [applyMove]
            exact setConnPos_queue_map _ _ _ _
          · intro hnone
            cases hnone
          · intro hf
            simp [hf] at hfit
          · intro u' hu' hne
            exact absurd (Option.some.inj hu').symm hne
          · intro c hc _ _
            obtain rfl := Option.some.inj hc
            exact hacc
      · have hres : UpdatePlayerPosition r username x y = r := by
          simp [UpdatePlayerPosition, hfit, hocc, hu]
        refine ⟨by rw [hres], fun _ => hres, fun _ => hres, fun _ _ _ => hres, ?_⟩
        intro c _ _ hocc2
        exact absurd (hocc2 u rfl) hu
    | none =>
      cases hfind : findConn username r.clients with
      | none =>
        have hres : UpdatePlayerPosition r username x y = r := by
          simp [UpdatePlayerPosition, hfit, hocc, tryMove, hfind]
        refine ⟨by rw [hres], fun _ => hres, fun _ => hres, fun _ _ _ => hres, ?_⟩
        intro c hc
        cases hc
      | some c₀ =>
        have hres : UpdatePlayerPosition r username x y
            = applyMove r username (posKey x y) (getRoomNumberFromPosition r.map x y) c₀.pos := by
          simp [UpdatePlayerPosition, hfit, hocc, tryMove, hfind]
        have hacc := applyMove_accept r username x y c₀ hpi hres hfind
        refine ⟨?_, ?_, ?_, ?_, ?_⟩
        · rw [hres]
          simp only [applyMove]
          exact setConnPos_queue_map _ _ _ _
        · intro hnone
          cases hnone
        · intro hf
          simp [hf] at hfit
        · intro u' hu'
          cases hu'
        · intro c hc _ _
          obtain rfl := Option.some.inj hc
          exact hacc
  · rw [Bool.not_eq_true] at hfit
    have hres : UpdatePlayerPosition r username x y = r := by
      simp [UpdatePlayerPosition, hfit]
    refine ⟨by rw [hres], fun _ => hres, fun _ => hres, fun _ _ _ => hres, ?_⟩
    intro c _ hfit2
    simp [hfit] at hfit2

/-- Claim C1 witness: alice, at "52:120" in a one-player room on the
all-floor map, moves to (120, 53): the new posIndex entry appears, the
old one is deleted, and her connection carries the new position. -/
theorem movePlayer_arbitration_witness :
    alLookup (posKey 120 53) (UpdatePlayerPosition roomAlice "alice" 120 53).posIndex
        = some "alice" ∧
    alLookup "52:120" (UpdatePlayerPosition roomAlice "alice" 120 53).posIndex = none ∧
    findConn "alice" (UpdatePlayerPosition roomAlice "alice" 120 53).clients
        = some { aliceConn with pos := posKey 120 53,
                                currentRoomNumber :=
                                  getRoomNumberFromPosition roomAlice.map 120 53 } := by
  have h := movePlayer_arbitration roomAlice "alice" 120 53 (by decide)
  have hocc : ∀ u, alLookup (posKey 120 53) roomAlice.posIndex = some u → u = "alice" := by
    intro u hu
    have h0 : alLookup (posKey 120 53) roomAlice.posIndex = none := by decide
    rw [h0] at hu
    cases hu
  have hacc := h.2.2.2.2 aliceConn (by decide) (by decide) hocc
  exact ⟨hacc.1, hacc.2.1 (by decide) (by decide), hacc.2.2.1⟩

end Morg
